import Mathlib

/-!
Shallow embedding of `pyback.py`, an rsync-over-ssh snapshot-rotation backup script, together
with theorems settling the specification claims about it.  Pure fragments of the script are
translated to Lean functions; the dynamic typing of Python is made explicit where it matters
(`Except PyExc` results model raised exceptions), and the external processes the script spawns
(ssh, find, sort, head, rsync, rm, mv) are modelled by their documented input/output behaviour
with explicit failure injection.
-/

namespace Pyback

/-- Python exceptions that the modelled fragments can raise. -/
inductive PyExc where
  | valueError
  | typeError
  | attributeError
  deriving DecidableEq, Repr

/-- Result-aggregator state: the three message lists of `BackupNotifier`
(pyback.py lines 43-45). -/
structure Notifier where
  successes : List String
  errors : List String
  warnings : List String
  deriving DecidableEq, Repr

/-- Fields of a `subprocess.CalledProcessError` as consumed by the notifier methods
(`output` aliases `stdout` in Python; here it is simply a field). -/
structure ProcErr where
  cmd : List String
  returncode : Int
  stdout : String
  stderr : String
  output : String
  deriving DecidableEq, Repr

/-- The dynamic value actually passed as the optional second argument `e` of
`add_warning` / `add_error`: Python has no type here, so the model enumerates the values the
program passes: `None`, a `str`, or a `CalledProcessError`. -/
inductive ErrCtx where
  | noneCtx
  | strCtx (s : String)
  | procCtx (e : ProcErr)
  deriving DecidableEq, Repr

/-- Python `str()` of an integer. -/
def pyStrInt (n : Int) : String := toString n

/-- Model of `BackupNotifier.add_warning` (lines 68-72).  `if e:` tests Python truthiness (a non-empty
string is truthy), and the formatting body immediately dereferences `e.cmd`; when `e` is a
non-empty `str` this raises `AttributeError` because `str` has no attribute `cmd`. -/
def addWarning (n : Notifier) (message : String) (e : ErrCtx) : Except PyExc Notifier :=
  let body := message ++ "\n"
  match e with
  | .noneCtx => .ok { n with warnings := n.warnings ++ [body] }
  | .strCtx s =>
      if s = "" then .ok { n with warnings := n.warnings ++ [body] }
      else .error .attributeError
  | .procCtx pe =>
      let body := body ++ "Call:\n " ++ String.intercalate " " pe.cmd ++ "\n\n" ++
        "Call exited with status " ++ pyStrInt pe.returncode ++ "\n\n" ++
        "Stdout:\n " ++ pe.stdout ++ "\n\n" ++ "Stderr:\n " ++ pe.stderr ++ "\n\n" ++
        "Output:\n " ++ pe.output ++ "\n\n"
      .ok { n with warnings := n.warnings ++ [body] }

/-- Model of `BackupNotifier.add_success` (lines 59-60). -/
def addSuccess (n : Notifier) (message : String) : Notifier :=
  { n with successes := n.successes ++ [message] }

/-- Model of `BackupNotifier.add_error` (lines 62-66), restricted to the message part: every call site in
the driver passes a genuine `CalledProcessError`, whose formatted context block depends only on
external subprocess output; no claim depends on error bodies, so the model records the message
body only. -/
def addError (n : Notifier) (message : String) : Notifier :=
  { n with errors := n.errors ++ [message ++ "\n"] }

/-- The consolidated report handed to the mail transport. -/
structure Report where
  subject : String
  body : String
  deriving DecidableEq, Repr

/-- Model of `BackupNotifier.send_notification` (lines 74-96): builds the consolidated report from the
aggregated messages; the SMTP delivery itself is an external side effect. -/
def buildReport (hostname : String) (n : Notifier) : Report :=
  let numS := n.successes.length
  let numE := n.errors.length
  let numW := n.warnings.length
  let subject := hostname ++ " Backup Complete: " ++ toString numE ++ " Errors, " ++
    toString numS ++ " Successes, " ++ toString numW ++ " Warnings."
  let body := ""
  let body := if numE ≠ 0 then n.errors.foldl (fun b e => b ++ "--- ERROR:\n" ++ e ++ "\n\n") body
    else body
  let body := if numW ≠ 0 then
    n.warnings.foldl (fun b w => b ++ "--- WARNING:\n" ++ w ++ "\n\n") body else body
  let body := if numS ≠ 0 then
    n.successes.foldl (fun b s => b ++ "--- OK:\n" ++ s ++ "\n\n") body else body
  ⟨subject, body⟩

/-- Characters Python's `int()` conversion strips around the number. -/
def isPySpace (c : Char) : Bool :=
  c = ' ' || c = '\t' || c = '\n' || c = '\r' || c = '\x0b' || c = '\x0c'

/-- Decimal value of a digit list. -/
def digitsVal (ds : List Char) : Int :=
  ds.foldl (fun a c => a * 10 + ((c.toNat : Int) - 48)) 0

/-- CPython `int(<str>)`: optional surrounding whitespace, optional sign, one or more decimal
digits (underscore digit separators are not modelled; no input under study contains them).
Anything else raises `ValueError`. -/
def pyIntOfChars (l : List Char) : Option Int :=
  let core := ((l.dropWhile isPySpace).reverse.dropWhile isPySpace).reverse
  let signDigits : Bool × List Char :=
    match core with
    | '-' :: rest => (true, rest)
    | '+' :: rest => (false, rest)
    | _ => (false, core)
  if signDigits.2 ≠ [] ∧ signDigits.2.all Char.isDigit then
    some (if signDigits.1 then -(digitsVal signDigits.2) else digitsVal signDigits.2)
  else none

/-- Python `int(s)` as an Except: `ValueError` on malformed input. -/
def pyInt (s : String) : Except PyExc Int :=
  match pyIntOfChars s.data with
  | some n => .ok n
  | none => .error .valueError

/-- One entry of the `backupsets` configuration array, as read from JSON. -/
structure SetConfig where
  localdir : String
  remotedir : String
  excludes : List String
  retention : Option String
  deriving DecidableEq, Repr

/-- A constructed `BackupSet` (lines 28-33) with its resolved retention in minutes. -/
structure BackupSetR where
  localdir : String
  remotedir : String
  excludes : List String
  retention : Int
  deriving DecidableEq, Repr

/-- Python slice `s[:-1]`: everything but the last character (empty result on short input). -/
def sliceDropLast (s : String) : String := String.mk s.data.dropLast

/-- Python `str(s[-1:]).lower()` as a character list (empty or a single lowercased char). -/
def lastLower (s : String) : List Char :=
  match s.data.getLast? with
  | none => []
  | some c => [c.toLower]

/-- Lines 138-153: resolve one retention spec.  `retentionData[:-1]` and `retentionData[-1:]`
are the Python slices; the unit letters are matched by substring containment (equivalent to
character containment, the unit slice having at most one character) in the checked order
y, w, d, h, m; the unknown-unit branch calls `add_warning` with a *string* context.
Returns the resolved minutes together with the updated notifier. -/
def resolveRetention (n : Notifier) (localdir : String) (retention : Option String) :
    Except PyExc (Int × Notifier) :=
  let defMins : Int := 12 * 52 * 7 * 24 * 60
  match retention with
  | none => .ok (defMins, n)
  | some rd =>
      let timeStr := sliceDropLast rd
      let unitStr := lastLower rd
      match pyInt timeStr with
      | .error e => .error e
      | .ok t =>
          if unitStr.contains 'y' then .ok (t * 365 * 24 * 60, n)
          else if unitStr.contains 'w' then .ok (t * 52 * 7 * 24 * 60, n)
          else if unitStr.contains 'd' then .ok (t * 24 * 60, n)
          else if unitStr.contains 'h' then .ok (t * 60, n)
          else if unitStr.contains 'm' then .ok (t, n)
          else
            match addWarning n "No Retention Policy Set on Backup Set"
              (.strCtx ("Retention for " ++ localdir ++ " defaulting to 12 weeks.")) with
            | .error e => .error e
            | .ok n' => .ok (defMins, n')

/-- Lines 127-155 for one `backupsets` element: skip (with warning) when the local directory is
missing, otherwise resolve retention and build the `BackupSet`.  `isdir` stands for
`os.path.isdir` at run time. -/
def processBackupSet (isdir : String → Bool) (baseExcludes : List String) (n : Notifier)
    (bs : SetConfig) : Except PyExc (Notifier × Option BackupSetR) :=
  if !(isdir bs.localdir) then
    match addWarning n "Local Backup Directory Missing"
      (.strCtx ("Local directory to backup, " ++ bs.localdir ++
        " does not exist. Should it? Backup set skipped.")) with
    | .error e => .error e
    | .ok n' => .ok (n', none)
  else
    let setExcludes := bs.excludes.map (fun p => "--exclude=" ++ p)
    match resolveRetention n bs.localdir bs.retention with
    | .error e => .error e
    | .ok (mins, n') =>
        .ok (n', some ⟨bs.localdir, bs.remotedir, baseExcludes ++ setExcludes, mins⟩)

/-- Lines 126-155: the whole `backupsets` loop. -/
def buildBackupSets (isdir : String → Bool) (baseExcludes : List String) :
    Notifier → List SetConfig → Except PyExc (Notifier × List BackupSetR)
  | n, [] => .ok (n, [])
  | n, bs :: rest =>
      match processBackupSet isdir baseExcludes n bs with
      | .error e => .error e
      | .ok (n', r) =>
          match buildBackupSets isdir baseExcludes n' rest with
          | .error e => .error e
          | .ok (n'', rs) => .ok (n'', r.toList ++ rs)

/-- Characters CPython 3.7+ `re.escape` escapes (its `_special_chars_map`). -/
def reSpecials : List Char := "()[]\x7b\x7d?*+-|^$\\.&~# \t\n\r\x0b\x0c".data

/-- Test for a regex-special character. -/
def isReSpecial (c : Char) : Bool := reSpecials.contains c

/-- Escape of one character under `re.escape`. -/
def escChar (c : Char) : List Char := if isReSpecial c then ['\\', c] else [c]

/-- Character-list form of `re.escape`. -/
def reEscList (l : List Char) : List Char := l.foldr (fun c acc => escChar c ++ acc) []

/-- Python `re.escape`, the quoting function the script applies to every remote path. -/
def reEsc (s : String) : String := String.mk (reEscList s.data)

/-- Python `path.split('/')` on character lists. -/
def splitSlash : List Char → List (List Char)
  | [] => [[]]
  | c :: rest =>
      let r := splitSlash rest
      if c = '/' then [] :: r
      else
        match r with
        | [] => [[c]]
        | h :: t => (c :: h) :: t

/-- CPython `posixpath.normpath` initial-slash count: 1 for a leading slash, except that
exactly two leading slashes count as 2 (POSIX reserves an implementation-defined `//`). -/
def initialSlashes (p : String) : Nat :=
  match p.data with
  | '/' :: '/' :: '/' :: _ => 1
  | '/' :: '/' :: _ => 2
  | '/' :: _ => 1
  | _ => 0

/-- The slash run put in front of the normalised path. -/
def slashRun : Nat → String
  | 0 => ""
  | 1 => "/"
  | _ => "//"

/-- One step of `posixpath.normpath`'s component loop: drop empty and `.` components, let `..`
cancel the previous component unless there is nothing cancellable. -/
def normStep (sl : Nat) (acc : List String) (comp : String) : List String :=
  if comp = "" ∨ comp = "." then acc
  else if comp ≠ ".." ∨ (sl = 0 ∧ acc = []) ∨ acc.getLast? = some ".." then acc ++ [comp]
  else if acc ≠ [] then acc.dropLast
  else acc

/-- Python `'/'.join(comps)`. -/
def joinSlash : List String → String
  | [] => ""
  | h :: t => t.foldl (fun a s => a ++ "/" ++ s) h

/-- CPython `posixpath.normpath`. -/
def posixNormpath (p : String) : String :=
  if p = "" then "."
  else
    let sl := initialSlashes p
    let comps := (splitSlash p.data).map String.mk
    let newComps := comps.foldl (normStep sl) []
    let res := slashRun sl ++ joinSlash newComps
    if res = "" then "." else res

/-- CPython `posixpath.basename`: everything after the last slash. -/
def posixBasename (p : String) : String :=
  String.mk ((p.data.reverse.takeWhile (fun c => c != '/')).reverse)

/-- Leading numeric key of a line under GNU `sort -n` (C locale): optional leading blanks, an
optional minus sign, then the leading decimal digits; a line with no leading number has key
0. -/
def lineKey (s : String) : Int :=
  match s.data.dropWhile (fun c => c == ' ' || c == '\t') with
  | [] => 0
  | c :: rest =>
      if c = '-' then -(digitsVal (rest.takeWhile Char.isDigit))
      else digitsVal ((c :: rest).takeWhile Char.isDigit)

/-- Strict lexicographic (byte-order, equivalently codepoint-order) comparison of character
lists: the order GNU sort's last-resort whole-line comparison uses. -/
def charsLtB : List Char → List Char → Bool
  | [], [] => false
  | [], _ :: _ => true
  | _ :: _, [] => false
  | a :: as, b :: bs => if a < b then true else if b < a then false else charsLtB as bs

/-- Strict byte-order comparison of strings. -/
def strLtB (a b : String) : Bool := charsLtB a.data b.data

/-- Reflexive byte-order comparison of strings. -/
def strLeB (a b : String) : Bool := !strLtB b a

/-- Boolean comparison realised by `sort -n -r`: larger numeric key first; GNU sort's
last-resort whole-line comparison (which honours `-r`) breaks ties, giving descending byte
order. -/
def descNRB (a b : String) : Bool :=
  if lineKey b < lineKey a then true
  else if lineKey a = lineKey b then strLeB b a
  else false

/-- Propositional form of the `sort -n -r` ordering. -/
def descNR (a b : String) : Prop := descNRB a b = true

instance : DecidableRel descNR := fun a b => Bool.decEq (descNRB a b) true

/-- Boolean comparison realised by `sort -n`: smaller numeric key first, ties in ascending
byte order. -/
def ascNB (a b : String) : Bool :=
  if lineKey a < lineKey b then true
  else if lineKey a = lineKey b then strLeB a b
  else false

/-- Propositional form of the `sort -n` ordering. -/
def ascN (a b : String) : Prop := ascNB a b = true

instance : DecidableRel ascN := fun a b => Bool.decEq (ascNB a b) true

/-- Output lines of `find <base> -mindepth 1 -maxdepth 1 -type d`: one line per immediate
subdirectory.  The remote shell has already unescaped `re.escape`'s backslashes (a backslash
quotes exactly the following character), so the printed prefix is the original base path. -/
def findLines (base : String) (names : List String) : List String :=
  names.map (fun nm => base ++ "/" ++ nm)

/-- The `sort -n -r` command as a list transformer. -/
def sortNR (ls : List String) : List String := List.insertionSort descNR ls

/-- The `sort -n` command as a list transformer. -/
def sortN (ls : List String) : List String := List.insertionSort ascN ls

/-- The `head -1` command plus the byte-stream decoding at line 187: the first line with its trailing
newline, or the empty string when there is no input at all. -/
def headLine : List String → String
  | [] => ""
  | l :: _ => l ++ "\n"

/-- Lines 180-187 (`ResolveLatest`): the raw `latestBackupDir` string for a given listing. -/
def resolveLatestRaw (base : String) (names : List String) : String :=
  headLine (sortNR (findLines base names))

/-- Remote state under one dataset's base directory: each immediate subdirectory's name paired
with the age, in whole minutes, of its inode metadata-change time (ctime). -/
structure RemoteFS where
  entries : List (String × Nat)
  deriving DecidableEq, Repr

/-- Name listing of a remote state. -/
def RemoteFS.names (fs : RemoteFS) : List String := fs.entries.map Prod.fst

/-- Per-(target, dataset) external behaviour: the exit status of each spawned checked command
(`true` = exit 0) and the timestamp `time.strftime` produces at promotion time.  The two
`Popen` listing pipelines are flagged separately because the script never checks their exit
status: a failed listing merely produces empty stdout. -/
structure PairEnv where
  mkdirOk : Bool
  rmTmpOk : Bool
  findFails : Bool
  rsyncOk : Bool
  mvOk : Bool
  find2Fails : Bool
  rmOldOk : Bool
  stamp : String
  deriving DecidableEq, Repr

/-- A `BackupTarget` (lines 21-26).  The port is kept as the string a working configuration
supplies; the dynamically-typed construction (and its `TypeError` on an integer port) is
modelled separately below. -/
structure BackupTargetR where
  address : String
  user : String
  port : String
  key : String
  deriving DecidableEq, Repr

/-- Effect of `ssh ... rm -fR <base>/.tmp` (line 175): the staging entry is gone afterwards. -/
def clearStaging (fs : RemoteFS) : RemoteFS :=
  ⟨fs.entries.filter (fun e => e.1 != ".tmp")⟩

/-- The latest-listing candidate names exactly as the script obtains them: empty output when
the listing command failed, otherwise the post-`ClearStaging` directory names; note the command
itself applies no filter for the staging name. -/
def findCandidates (env : PairEnv) (fs : RemoteFS) : List String :=
  if env.findFails then [] else (clearStaging fs).names

/-- The `latestBackupDir` value available at line 193 of the pipeline. -/
def pairLatestRaw (env : PairEnv) (fs : RemoteFS) (base : String) : String :=
  resolveLatestRaw base (findCandidates env fs)

/-- Lines 193-199: the rsync command.  `--link-dest` is added exactly when `latestBackupDir` is
non-empty (Python truthiness); its value is derived by `re.escape`, `os.path.normpath` and
`os.path.basename` from the raw listing line. -/
def transferCmd (rsyncexe sshexe : String) (t : BackupTargetR) (s : BackupSetR)
    (latestRaw : String) : List String :=
  let eArg := sshexe ++ " -p " ++ t.port ++ " -i " ++ t.key
  let dest := t.user ++ "@" ++ t.address ++ ":" ++ reEsc (s.remotedir ++ "/" ++ ".tmp")
  if latestRaw = "" then
    [rsyncexe, "-rltgoDz", "--stats", "--ignore-errors", "--delete", "--delete-excluded"] ++
      s.excludes ++ ["-e", eArg, s.localdir, dest]
  else
    let linkDestTarget := "../" ++ posixBasename (posixNormpath (reEsc latestRaw))
    [rsyncexe, "-rltgoDz", "--stats", "--ignore-errors", "--delete", "--delete-excluded"] ++
      s.excludes ++ ["-e", eArg, "--link-dest=" ++ linkDestTarget, s.localdir, dest]

/-- Python `str.splitlines` worker restricted to `\n` separators (the only separator a remote
`find` listing can contain). -/
def splitLinesAux : List Char → List Char → List String
  | [], acc => if acc = [] then [] else [String.mk acc.reverse]
  | c :: rest, acc =>
      if c = '\n' then String.mk acc.reverse :: splitLinesAux rest []
      else splitLinesAux rest (c :: acc)

/-- Python `str.splitlines` (with `\n` separators). -/
def pySplitlines (s : String) : List String := splitLinesAux s.data []

/-- Concatenated stdout of a command that prints one line per item. -/
def linesOut : List String → String
  | [] => ""
  | l :: rest => l ++ "\n" ++ linesOut rest

/-- The `find ... -cmin +N` selection (line 218): immediate subdirectories whose ctime age in
minutes is strictly greater than the cutoff. -/
def staleLines (base : String) (fs : RemoteFS) (cutoff : Int) : List String :=
  (fs.entries.filter (fun e => decide (cutoff < (e.2 : Int)))).map (fun e => base ++ "/" ++ e.1)

/-- Remote state right after `Promote` (line 210): staging renamed to the timestamp name,
existing ages unchanged, the new snapshot's ctime age 0. -/
def fsAfterPromote (env : PairEnv) (fs : RemoteFS) : RemoteFS :=
  ⟨(clearStaging ⟨(clearStaging fs).entries ++ [(".tmp", 0)]⟩).entries ++ [(env.stamp, 0)]⟩

/-- Raw `oldBackupDirs` string (lines 217-221): empty when the listing pipeline failed, else
the stale paths in `sort -n` order, one per line. -/
def retentionRaw (env : PairEnv) (fs : RemoteFS) (s : BackupSetR) : String :=
  if env.find2Fails then ""
  else linesOut (sortN (staleLines s.remotedir (fsAfterPromote env fs) s.retention))

/-- The parsed per-line deletion list (line 228). -/
def retentionParsed (env : PairEnv) (fs : RemoteFS) (s : BackupSetR) : List String :=
  pySplitlines (retentionRaw env fs s)

/-- Lines 160-237: one (target, dataset) pipeline.  `subprocess.run(..., check=True)` steps
raise `CalledProcessError` on non-zero exit, which the surrounding `except` records as an Error
before `continue` abandons the pipeline.  The two `Popen` listing pipelines raise nothing (so
their `except` handlers are unreachable) and a failed listing shows up as empty stdout only.
The `re.escape`d arguments are unescaped again by the remote shell, so effects apply to the
plain paths; a failed `rm -fR` of stale snapshots is modelled as leaving the state
unchanged. -/
def runPair (_rsyncexe : String) (t : BackupTargetR) (s : BackupSetR) (env : PairEnv)
    (fs : RemoteFS) (n : Notifier) : RemoteFS × Notifier :=
  if !env.mkdirOk then
    (fs, addError n ("Could not create remote directory:\n" ++ reEsc s.remotedir ++
      "\n\nBackup set skipped."))
  else if !env.rmTmpOk then
    (fs, addError n ("Could not remove remote temp directory:\n" ++
      reEsc (s.remotedir ++ "/" ++ ".tmp") ++ "\n\nBackup set skipped."))
  else
    let fs1 := clearStaging fs
    let fs2 : RemoteFS := ⟨fs1.entries ++ [(".tmp", 0)]⟩
    if !env.rsyncOk then (fs2, addError n "Rsync failed. Backup set skipped.")
    else if !env.mvOk then
      (fs2, addError n ("Renaming temp backup dir from:\n" ++
        reEsc (s.remotedir ++ "/" ++ ".tmp") ++ "\n\nto:\n" ++
        reEsc (s.remotedir ++ "/" ++ env.stamp) ++ "\n\nBackup set skipped."))
    else
      let fs3 := fsAfterPromote env fs
      let oldRaw := retentionRaw env fs s
      if oldRaw = "" then
        (fs3, addSuccess n ("Successfully completed backup of:\n" ++ s.localdir ++
          "\n\nTo:\n" ++ s.remotedir ++ "\n\nOn:\n" ++ t.address ++ "\n"))
      else if !env.rmOldOk then
        (fs3, addError n "Removing old backup directories failed. Backup set skipped.")
      else
        (⟨fs3.entries.filter (fun e => !(retentionParsed env fs s).contains
          (s.remotedir ++ "/" ++ e.1))⟩,
          addSuccess n ("Successfully completed backup of:\n" ++ s.localdir ++
            "\n\nTo:\n" ++ s.remotedir ++ "\n\nOn:\n" ++ t.address ++ "\n"))

/-- Whether a pipeline invocation records an Error: exactly the checked-command failures (the
unchecked listing commands cannot produce one). -/
def pairFailed (s : BackupSetR) (env : PairEnv) (fs : RemoteFS) : Bool :=
  !env.mkdirOk || !env.rmTmpOk || !env.rsyncOk || !env.mvOk ||
    (retentionRaw env fs s != "" && !env.rmOldOk)

/-- Inner driver loop (lines 160-237): run every dataset against one target.  `envs i` is the
external behaviour of the i-th dataset's pipeline and `fss i` the remote state under its base
directory (distinct datasets own disjoint remote subtrees). -/
def runSetsFrom (rsyncexe : String) (t : BackupTargetR) (envs : Nat → PairEnv)
    (fss : Nat → RemoteFS) : Nat → List BackupSetR → Notifier → Notifier
  | _, [], n => n
  | i, s :: rest, n =>
      runSetsFrom rsyncexe t envs fss (i + 1) rest (runPair rsyncexe t s (envs i) (fss i) n).2

/-- Outer driver loop (lines 157-237) over all targets. -/
def runTargetsFrom (rsyncexe : String) (envs : Nat → Nat → PairEnv)
    (fss : Nat → Nat → RemoteFS) (sets : List BackupSetR) :
    Nat → List BackupTargetR → Notifier → Notifier
  | _, [], n => n
  | j, t :: rest, n =>
      runTargetsFrom rsyncexe envs fss sets (j + 1) rest
        (runSetsFrom rsyncexe t (envs j) (fss j) 0 sets n)

/-- Lines 157-239: driver loop followed by `send_notification`. -/
def runAll (rsyncexe hostname : String) (targets : List BackupTargetR)
    (sets : List BackupSetR) (envs : Nat → Nat → PairEnv) (fss : Nat → Nat → RemoteFS)
    (n : Notifier) : Notifier × Report :=
  let final := runTargetsFrom rsyncexe envs fss sets 0 targets n
  (final, buildReport hostname final)

/-- A dynamically typed Python value (the fragment of Python's value space the script's command
construction manipulates). -/
inductive PyVal where
  | vstr (s : String)
  | vint (n : Int)
  deriving DecidableEq, Repr

/-- Python `+` on these values: concatenation or addition; mixing `str` and `int` raises
`TypeError`. -/
def pyAdd : PyVal → PyVal → Except PyExc PyVal
  | .vstr a, .vstr b => .ok (.vstr (a ++ b))
  | .vint a, .vint b => .ok (.vint (a + b))
  | _, _ => .error .typeError

/-- Line 158: `sshparams`, with the port carried at its dynamic type straight from JSON. -/
def sshParamsDyn (key : String) (port : PyVal) (userAtAddress : String) : List PyVal :=
  [.vstr "-i", .vstr key, .vstr "-p", port, .vstr userAtAddress]

/-- The `subprocess` argv requirement: every element must be a `str`; an `int` element raises
`TypeError` when the command is spawned (first reached at line 168). -/
def argvStrings (argv : List PyVal) : Except PyExc (List String) :=
  argv.mapM (fun v => match v with | .vstr s => .ok s | .vint _ => .error .typeError)

/-- Lines 195/199: the `-e` argument `sshexe + ' -p ' + port + ' -i ' + key`, evaluated left to
right with Python `+`. -/
def rsyncEArgDyn (sshexe : String) (port : PyVal) (key : String) : Except PyExc PyVal :=
  match pyAdd (.vstr sshexe) (.vstr " -p ") with
  | .error e => .error e
  | .ok a =>
      match pyAdd a port with
      | .error e => .error e
      | .ok b =>
          match pyAdd b (.vstr " -i ") with
          | .error e => .error e
          | .ok c => pyAdd c (.vstr key)

/-! ### Helper lemmas: string order, the sort model, and latest selection -/

theorem charsLtB_iff : ∀ a b : List Char, charsLtB a b = true ↔ List.Lex (· < ·) a b
  | [], [] => by simp [charsLtB]
  | [], _ :: _ => by simpa [charsLtB] using List.Lex.nil
  | _ :: _, [] => by simp [charsLtB]
  | a :: as, b :: bs => by
      by_cases hab : a < b
      · simp only [charsLtB, if_pos hab]
        exact iff_of_true (by trivial) (List.Lex.rel hab)
      · by_cases hba : b < a
        · simp only [charsLtB, if_neg hab, if_pos hba]
          refine iff_of_false (by simp) (fun h => ?_)
          cases h with
          | rel h' => exact hab h'
          | cons _ => exact lt_irrefl a hba
        · have heq : a = b := le_antisymm (not_lt.mp hba) (not_lt.mp hab)
          subst heq
          simp only [charsLtB, if_neg hab, if_neg hba]
          exact (charsLtB_iff as bs).trans List.Lex.cons_iff.symm

theorem strLtB_iff {a b : String} : strLtB a b = true ↔ a < b := by
  rw [String.lt_iff_toList_lt]
  exact charsLtB_iff a.data b.data

theorem strLeB_iff {a b : String} : strLeB a b = true ↔ a ≤ b := by
  rw [strLeB, Bool.not_eq_true']
  rw [← Bool.not_eq_true, strLtB_iff, not_lt]

theorem lex_append_left_iff {p a b : List Char} :
    List.Lex (· < ·) (p ++ a) (p ++ b) ↔ List.Lex (· < ·) a b := by
  induction p with
  | nil => simp
  | cons c cs ih => simpa [List.cons_append, List.Lex.cons_iff] using ih

theorem str_data_append (a b : String) : (a ++ b).data = a.data ++ b.data := rfl

theorem str_append_lt_iff {p a b : String} : p ++ a < p ++ b ↔ a < b := by
  rw [String.lt_iff_toList_lt, String.lt_iff_toList_lt]
  show List.Lex (· < ·) ((p ++ a).data) ((p ++ b).data) ↔ List.Lex (· < ·) a.data b.data
  rw [str_data_append, str_data_append]
  exact lex_append_left_iff

theorem str_append_le_iff {p a b : String} : p ++ a ≤ p ++ b ↔ a ≤ b := by
  rw [← not_lt, ← not_lt, str_append_lt_iff]

theorem str_append_right_inj {p a b : String} (h : p ++ a = p ++ b) : a = b := by
  have h' := congrArg String.data h
  rw [str_data_append, str_data_append] at h'
  exact String.toList_inj.mp (List.append_cancel_left h')

theorem head?_append_of_head? {l1 l2 : List Char} {c : Char} (h : l1.head? = some c) :
    (l1 ++ l2).head? = some c := by
  cases l1 <;> simp_all

theorem line_head_slash {base nm : String} (hb : base.data.head? = some '/') :
    (base ++ "/" ++ nm).data.head? = some '/' := by
  rw [str_data_append, str_data_append]
  exact head?_append_of_head? (head?_append_of_head? hb)

theorem lineKey_slash {s : String} (h : s.data.head? = some '/') : lineKey s = 0 := by
  obtain ⟨cs, hcs⟩ : ∃ cs, s.data = '/' :: cs := by
    cases hd : s.data with
    | nil => rw [hd] at h; cases h
    | cons c cs =>
        rw [hd] at h
        simp only [List.head?] at h
        exact ⟨cs, by rw [Option.some_inj.mp h.symm]⟩
  unfold lineKey
  rw [hcs]
  simp [List.dropWhile, List.takeWhile, digitsVal]

theorem descNR_iff {a b : String} :
    descNR a b ↔ (lineKey b < lineKey a ∨ (lineKey a = lineKey b ∧ b ≤ a)) := by
  unfold descNR descNRB
  by_cases h1 : lineKey b < lineKey a
  · simp [h1]
  · by_cases h2 : lineKey a = lineKey b
    · simp [h1, h2, strLeB_iff]
    · simp [h1, h2]

instance : IsTotal String descNR := by
  constructor
  intro a b
  rw [descNR_iff, descNR_iff]
  rcases lt_trichotomy (lineKey a) (lineKey b) with h | h | h
  · exact Or.inr (Or.inl h)
  · rcases le_total b a with hle | hle
    · exact Or.inl (Or.inr ⟨h, hle⟩)
    · exact Or.inr (Or.inr ⟨h.symm, hle⟩)
  · exact Or.inl (Or.inl h)

instance : IsTrans String descNR := by
  constructor
  intro a b c hab hbc
  rw [descNR_iff] at hab hbc ⊢
  rcases hab with h1 | ⟨h1, h1'⟩ <;> rcases hbc with h2 | ⟨h2, h2'⟩
  · exact Or.inl (h2.trans h1)
  · exact Or.inl (h2 ▸ h1)
  · exact Or.inl (h1 ▸ h2)
  · exact Or.inr ⟨h1.trans h2, h2'.trans h1'⟩

theorem sortNR_head_max {ls : List String} {h : String} {t : List String}
    (hs : sortNR ls = h :: t) : h ∈ ls ∧ ∀ x ∈ ls, descNR h x := by
  have hperm := List.perm_insertionSort descNR ls
  have hsort := List.sorted_insertionSort descNR ls
  rw [sortNR] at hs
  rw [hs] at hperm hsort
  constructor
  · exact hperm.mem_iff.mp (List.mem_cons_self h t)
  · intro x hx
    rcases List.mem_cons.mp (hperm.mem_iff.mpr hx) with rfl | hx'
    · rw [descNR_iff]
      exact Or.inr ⟨rfl, le_refl x⟩
    · exact List.rel_of_sorted_cons hsort x hx'

theorem resolveLatestRaw_eq_empty_iff {base : String} {names : List String} :
    resolveLatestRaw base names = "" ↔ names = [] := by
  unfold resolveLatestRaw
  cases hs : sortNR (findLines base names) with
  | nil =>
      have hperm := List.perm_insertionSort descNR (findLines base names)
      rw [sortNR] at hs
      rw [hs] at hperm
      have hfl : findLines base names = [] := hperm.symm.eq_nil
      have : names = [] := List.map_eq_nil_iff.mp hfl
      simp [headLine, this]
  | cons l t =>
      have hne : names ≠ [] := by
        intro hn
        rw [hn] at hs
        simp [findLines, sortNR] at hs
      have : headLine (l :: t) ≠ "" := by
        intro hempty
        have := congrArg String.data hempty
        rw [headLine] at this
        rw [str_data_append] at this
        simp at this
      simpa [this] using hne

theorem resolveLatestRaw_max {base : String} {names : List String}
    (hb : base.data.head? = some '/') (hne : names ≠ []) :
    ∃ m, m ∈ names ∧ (∀ x ∈ names, x ≤ m) ∧
      resolveLatestRaw base names = base ++ "/" ++ m ++ "\n" := by
  cases hs : sortNR (findLines base names) with
  | nil =>
      exact absurd (resolveLatestRaw_eq_empty_iff.mp
        (by unfold resolveLatestRaw; rw [hs]; rfl)) hne
  | cons l t =>
      obtain ⟨hmem, hmax⟩ := sortNR_head_max hs
      obtain ⟨m, hm, rfl⟩ := List.mem_map.mp hmem
      refine ⟨m, hm, ?_, ?_⟩
      · intro x hx
        have hrel := hmax _ (List.mem_map_of_mem (fun nm => base ++ "/" ++ nm) hx)
        rw [descNR_iff] at hrel
        have hk : lineKey (base ++ "/" ++ m) = 0 := lineKey_slash (line_head_slash hb)
        have hk' : lineKey (base ++ "/" ++ x) = 0 := lineKey_slash (line_head_slash hb)
        rcases hrel with hlt | ⟨_, hle⟩
        · rw [hk, hk'] at hlt
          exact absurd hlt (lt_irrefl 0)
        · exact str_append_le_iff.mp hle
      · unfold resolveLatestRaw
        rw [hs]
        rfl

/-! ### Helper lemmas: `re.escape` and POSIX path functions -/

theorem str_append_assoc (a b c : String) : a ++ b ++ c = a ++ (b ++ c) := by
  apply String.toList_inj.mp
  show (a ++ b ++ c).data = (a ++ (b ++ c)).data
  rw [str_data_append, str_data_append, str_data_append, str_data_append, List.append_assoc]

theorem str_ne_empty_iff {s : String} : s ≠ "" ↔ s.data ≠ [] := by
  constructor
  · intro h hd
    exact h (String.toList_inj.mp hd)
  · intro h hd
    exact h (congrArg String.data hd)

theorem str_empty_append (s : String) : "" ++ s = s := by
  apply String.toList_inj.mp
  show ("" ++ s).data = s.data
  rw [str_data_append]
  rfl

theorem reEscList_cons (c : Char) (cs : List Char) :
    reEscList (c :: cs) = escChar c ++ reEscList cs := rfl

theorem reEscList_append (x y : List Char) :
    reEscList (x ++ y) = reEscList x ++ reEscList y := by
  induction x with
  | nil => rfl
  | cons c cs ih => rw [List.cons_append, reEscList_cons, reEscList_cons, ih, List.append_assoc]

theorem reEsc_append (x y : String) : reEsc (x ++ y) = reEsc x ++ reEsc y := by
  apply String.toList_inj.mp
  show (reEsc (x ++ y)).data = (reEsc x ++ reEsc y).data
  rw [str_data_append]
  show reEscList (x ++ y).data = reEscList x.data ++ reEscList y.data
  rw [str_data_append, reEscList_append]

theorem mem_reEscList {x : Char} : ∀ {l : List Char}, x ∈ reEscList l → x = '\\' ∨ x ∈ l := by
  intro l
  induction l with
  | nil => intro h; cases h
  | cons c cs ih =>
      intro h
      rw [reEscList_cons] at h
      rcases List.mem_append.mp h with h1 | h1
      · unfold escChar at h1
        by_cases hsp : isReSpecial c
        · rw [if_pos hsp] at h1
          rcases List.mem_cons.mp h1 with h2 | h2
          · exact Or.inl h2
          · rw [List.mem_singleton] at h2
            exact Or.inr (by rw [h2]; exact List.mem_cons_self c cs)
        · rw [if_neg hsp] at h1
          rw [List.mem_singleton] at h1
          exact Or.inr (by rw [h1]; exact List.mem_cons_self c cs)
      · rcases ih h1 with h2 | h2
        · exact Or.inl h2
        · exact Or.inr (List.mem_cons_of_mem c h2)

theorem slash_not_mem_reEscList {l : List Char} (h : '/' ∉ l) : '/' ∉ reEscList l := by
  intro hmem
  rcases mem_reEscList hmem with h1 | h1
  · exact absurd h1 (by decide)
  · exact h h1

theorem splitSlash_ne_nil : ∀ l : List Char, splitSlash l ≠ []
  | [] => by simp [splitSlash]
  | c :: rest => by
      unfold splitSlash
      by_cases h : c = '/'
      · simp [h]
      · simp only [h, if_false]
        cases splitSlash rest <;> simp

theorem splitSlash_no_slash : ∀ {l : List Char}, '/' ∉ l → splitSlash l = [l]
  | [], _ => rfl
  | c :: rest, h => by
      have hc : ¬ (c = '/') := by
        intro hh
        subst hh
        exact h (List.mem_cons_self _ _)
      have hr : splitSlash rest = [rest] :=
        splitSlash_no_slash (fun hh => h (List.mem_cons_of_mem c hh))
      unfold splitSlash
      rw [hr]
      simp [hc]

theorem splitSlash_append {c : List Char} (hc : '/' ∉ c) :
    ∀ x : List Char, splitSlash (x ++ '/' :: c) = splitSlash x ++ [c]
  | [] => by
      show splitSlash ('/' :: c) = [[]] ++ [c]
      unfold splitSlash
      rw [splitSlash_no_slash hc]
      simp
  | ch :: x' => by
      have ih := splitSlash_append hc x'
      show splitSlash (ch :: (x' ++ '/' :: c)) = _
      unfold splitSlash
      rw [ih]
      by_cases h : ch = '/'
      · simp [h]
      · simp only [h, if_false]
        cases hx : splitSlash x' with
        | nil => exact absurd hx (splitSlash_ne_nil x')
        | cons hh tt => simp

theorem foldl_normStep_concat (sl : Nat) {c : String} (hc0 : c ≠ "") (hc1 : c ≠ ".")
    (hc2 : c ≠ "..") (l : List String) (acc : List String) :
    (l ++ [c]).foldl (normStep sl) acc = l.foldl (normStep sl) acc ++ [c] := by
  rw [List.foldl_append]
  show normStep sl (l.foldl (normStep sl) acc) c = _
  unfold normStep
  simp [hc0, hc1, hc2]

theorem joinSlash_concat (l : List String) (c : String) :
    joinSlash (l ++ [c]) = (if l = [] then c else joinSlash l ++ "/" ++ c) := by
  cases l with
  | nil => simp [joinSlash]
  | cons h t =>
      rw [if_neg (by simp)]
      show (t ++ [c]).foldl (fun a s => a ++ "/" ++ s) h = _
      rw [List.foldl_append]
      rfl

theorem takeWhile_append_stop {p : Char → Bool} {l1 : List Char} (h : ∀ a ∈ l1, p a = true)
    {x : Char} (hx : p x = false) (l2 : List Char) :
    (l1 ++ x :: l2).takeWhile p = l1 := by
  induction l1 with
  | nil => simp [List.takeWhile_cons, hx]
  | cons a l ih =>
      have ha := h a (List.mem_cons_self a l)
      rw [List.cons_append, List.takeWhile_cons, ha]
      simp only [if_true]
      rw [ih (fun b hb => h b (List.mem_cons_of_mem a hb))]

theorem basename_no_slash {c : String} (hc : '/' ∉ c.data) : posixBasename c = c := by
  unfold posixBasename
  have hall : ∀ a ∈ c.data.reverse, (a != '/') = true := by
    intro a ha
    rw [List.mem_reverse] at ha
    simp only [bne_iff_ne, ne_eq]
    intro hh
    subst hh
    exact hc ha
  rw [List.takeWhile_eq_self_iff.mpr hall, List.reverse_reverse]

theorem basename_concat {y c : String} (hc : '/' ∉ c.data) :
    posixBasename (y ++ "/" ++ c) = c := by
  unfold posixBasename
  have hdata : (y ++ "/" ++ c).data.reverse = c.data.reverse ++ '/' :: y.data.reverse := by
    rw [str_data_append, str_data_append]
    show (y.data ++ ['/'] ++ c.data).reverse = _
    rw [List.reverse_append, List.reverse_append]
    simp
  rw [hdata]
  rw [takeWhile_append_stop ?hall (by decide) y.data.reverse, List.reverse_reverse]
  case hall =>
    intro a ha
    rw [List.mem_reverse] at ha
    simp only [bne_iff_ne, ne_eq]
    intro hh
    subst hh
    exact hc ha

theorem basename_normpath_concat {x c : String} (hc0 : c ≠ "") (hc1 : c ≠ ".")
    (hc2 : c ≠ "..") (hcs : '/' ∉ c.data) :
    posixBasename (posixNormpath (x ++ "/" ++ c)) = c := by
  unfold posixNormpath
  have hp : x ++ "/" ++ c ≠ "" := by
    rw [str_ne_empty_iff, str_data_append, str_data_append]
    simp
  rw [if_neg hp]
  have hdata : (x ++ "/" ++ c).data = x.data ++ '/' :: c.data := by
    rw [str_data_append, str_data_append]
    show x.data ++ ['/'] ++ c.data = _
    rw [List.append_assoc]
    rfl
  have hsplit : splitSlash (x ++ "/" ++ c).data = splitSlash x.data ++ [c.data] := by
    rw [hdata]
    exact splitSlash_append hcs x.data
  dsimp only
  rw [hsplit, List.map_append]
  rw [show (([c.data].map String.mk) : List String) = [c] from rfl]
  rw [foldl_normStep_concat (initialSlashes (x ++ "/" ++ c)) hc0 hc1 hc2]
  rw [joinSlash_concat]
  set sl := initialSlashes (x ++ "/" ++ c) with hsl
  set acc := ((splitSlash x.data).map String.mk).foldl (normStep sl) [] with hacc
  have hcdata : c.data ≠ [] := str_ne_empty_iff.mp hc0
  by_cases hae : acc = []
  · rw [if_pos hae]
    have hres : slashRun sl ++ c ≠ "" := by
      rw [str_ne_empty_iff, str_data_append]
      simp [hcdata]
    rw [if_neg hres]
    match sl with
    | 0 => rw [show slashRun 0 = "" from rfl, str_empty_append]; exact basename_no_slash hcs
    | 1 =>
        rw [show slashRun 1 = "" ++ "/" from rfl, str_append_assoc, str_empty_append]
        rw [show ("/" ++ c : String) = "" ++ "/" ++ c from by rw [str_empty_append]]
        exact basename_concat hcs
    | (k + 2) =>
        rw [show slashRun (k + 2) = "/" ++ "/" from rfl, str_append_assoc]
        rw [show ("/" ++ ("/" ++ c) : String) = "/" ++ "/" ++ c from (str_append_assoc _ _ _).symm]
        exact basename_concat hcs
  · rw [if_neg hae]
    rw [show slashRun sl ++ (joinSlash acc ++ "/" ++ c) =
      slashRun sl ++ joinSlash acc ++ "/" ++ c from by
        rw [str_append_assoc (slashRun sl ++ joinSlash acc), str_append_assoc (slashRun sl),
          str_append_assoc (joinSlash acc)]]
    have hres : slashRun sl ++ joinSlash acc ++ "/" ++ c ≠ "" := by
      rw [str_ne_empty_iff, str_data_append]
      simp [hcdata]
    rw [if_neg hres]
    exact basename_concat hcs

/-! ### Helper lemmas: the link-dest value, splitlines, and the retention listing -/

theorem linkDest_value {base m : String} (_hm0 : m ≠ "") (hms : '/' ∉ m.data)
    (_hmn : '\n' ∉ m.data) :
    posixBasename (posixNormpath (reEsc (base ++ "/" ++ m ++ "\n"))) = reEsc m ++ "\\\n" := by
  have h1 : reEsc (base ++ "/" ++ m ++ "\n") = reEsc base ++ "/" ++ (reEsc m ++ "\\\n") := by
    rw [reEsc_append, reEsc_append, reEsc_append]
    rw [show reEsc "/" = "/" from rfl, show reEsc "\n" = "\\\n" from rfl]
    rw [str_append_assoc (reEsc base ++ "/")]
  rw [h1]
  have hdata : (reEsc m ++ "\\\n").data = (reEsc m).data ++ ['\\', '\n'] := by
    rw [str_data_append]
  have hlast : (reEsc m ++ "\\\n").data.getLast? = some '\n' := by
    rw [hdata, show (reEsc m).data ++ ['\\', '\n'] =
      ((reEsc m).data ++ ['\\']) ++ ['\n'] from by rw [List.append_assoc]; rfl]
    exact List.getLast?_concat _
  have hc0 : reEsc m ++ "\\\n" ≠ "" := fun h => absurd (h ▸ hlast) (by decide)
  have hc1 : reEsc m ++ "\\\n" ≠ "." := fun h => absurd (h ▸ hlast) (by decide)
  have hc2 : reEsc m ++ "\\\n" ≠ ".." := fun h => absurd (h ▸ hlast) (by decide)
  have hcs : '/' ∉ (reEsc m ++ "\\\n").data := by
    rw [hdata]
    intro hmem
    rcases List.mem_append.mp hmem with h2 | h2
    · exact slash_not_mem_reEscList hms h2
    · exact absurd h2 (by decide)
  exact basename_normpath_concat hc0 hc1 hc2 hcs

theorem splitLinesAux_line : ∀ {l : List Char}, '\n' ∉ l →
    ∀ (acc cs : List Char), splitLinesAux (l ++ '\n' :: cs) acc =
      String.mk (acc.reverse ++ l) :: splitLinesAux cs []
  | [], _, acc, cs => by
      show splitLinesAux ('\n' :: cs) acc =
        String.mk (acc.reverse ++ []) :: splitLinesAux cs []
      rw [splitLinesAux]
      simp
  | c :: l', h, acc, cs => by
      have hc : ¬ (c = '\n') := by
        intro hh
        subst hh
        exact h (List.mem_cons_self _ _)
      have ih := splitLinesAux_line (l := l')
        (fun hh => h (List.mem_cons_of_mem c hh)) (c :: acc) cs
      show splitLinesAux (c :: (l' ++ '\n' :: cs)) acc =
        String.mk (acc.reverse ++ (c :: l')) :: splitLinesAux cs []
      rw [splitLinesAux]
      rw [if_neg hc, ih]
      simp

theorem pySplitlines_linesOut : ∀ {ls : List String}, (∀ l ∈ ls, '\n' ∉ l.data) →
    pySplitlines (linesOut ls) = ls
  | [], _ => rfl
  | l :: rest, h => by
      have hl := h l (List.mem_cons_self _ _)
      have ih := pySplitlines_linesOut (fun x hx => h x (List.mem_cons_of_mem l hx))
      show pySplitlines (l ++ "\n" ++ linesOut rest) = l :: rest
      unfold pySplitlines
      have hdata : (l ++ "\n" ++ linesOut rest).data = l.data ++ '\n' :: (linesOut rest).data := by
        rw [str_data_append, str_data_append]
        show l.data ++ ['\n'] ++ _ = _
        rw [List.append_assoc]
        rfl
      rw [hdata, splitLinesAux_line hl [] (linesOut rest).data]
      show l :: pySplitlines (linesOut rest) = l :: rest
      rw [ih]

theorem linesOut_eq_empty_iff {ls : List String} : linesOut ls = "" ↔ ls = [] := by
  cases ls with
  | nil => simp [linesOut]
  | cons l rest =>
      simp only [linesOut]
      constructor
      · intro h
        have hd := congrArg String.data h
        rw [str_data_append, str_data_append] at hd
        simp at hd
      · intro h
        cases h

theorem mem_sortN_iff {x : String} {ls : List String} : x ∈ sortN ls ↔ x ∈ ls :=
  (List.perm_insertionSort ascN ls).mem_iff

theorem sortN_eq_nil_iff {ls : List String} : sortN ls = [] ↔ ls = [] := by
  constructor
  · intro h
    have hperm := List.perm_insertionSort ascN ls
    rw [sortN] at h
    rw [h] at hperm
    exact hperm.symm.eq_nil
  · intro h
    rw [h]
    rfl

theorem retentionParsed_eq {env : PairEnv} {fs : RemoteFS} {s : BackupSetR}
    (hff : env.find2Fails = false) (hbnl : '\n' ∉ s.remotedir.data)
    (hnl : ∀ e ∈ (fsAfterPromote env fs).entries, '\n' ∉ e.1.data) :
    retentionParsed env fs s =
      sortN (staleLines s.remotedir (fsAfterPromote env fs) s.retention) := by
  unfold retentionParsed retentionRaw
  rw [hff]
  simp only [Bool.false_eq_true, if_false]
  apply pySplitlines_linesOut
  intro l hl
  rw [mem_sortN_iff] at hl
  unfold staleLines at hl
  obtain ⟨e, he, rfl⟩ := List.mem_map.mp hl
  have he' := (List.mem_filter.mp he).1
  intro hmem
  rw [str_data_append, str_data_append] at hmem
  rcases List.mem_append.mp hmem with h1 | h1
  · rcases List.mem_append.mp h1 with h2 | h2
    · exact hbnl h2
    · exact absurd h2 (by decide)
  · exact hnl e he' h1

theorem mem_retentionParsed_iff {env : PairEnv} {fs : RemoteFS} {s : BackupSetR}
    (hff : env.find2Fails = false) (hbnl : '\n' ∉ s.remotedir.data)
    (hnl : ∀ e ∈ (fsAfterPromote env fs).entries, '\n' ∉ e.1.data)
    (hnodup : ((fsAfterPromote env fs).names).Nodup) :
    ∀ e ∈ (fsAfterPromote env fs).entries,
      ((s.remotedir ++ "/" ++ e.1) ∈ retentionParsed env fs s ↔ s.retention < (e.2 : Int)) := by
  intro e he
  rw [retentionParsed_eq hff hbnl hnl, mem_sortN_iff]
  constructor
  · intro hmem
    unfold staleLines at hmem
    obtain ⟨e', he', heq⟩ := List.mem_map.mp hmem
    obtain ⟨he'mem, he'age⟩ := List.mem_filter.mp he'
    have hname : e'.1 = e.1 := str_append_right_inj heq
    have heqe : e' = e := List.inj_on_of_nodup_map hnodup he'mem he hname
    rw [← heqe]
    exact of_decide_eq_true he'age
  · intro hage
    unfold staleLines
    exact List.mem_map_of_mem _ (List.mem_filter.mpr ⟨he, by simpa using hage⟩)

/-! ### Helper lemmas: pipeline outcome accounting -/

theorem runPair_warnings (re : String) (t : BackupTargetR) (s : BackupSetR) (env : PairEnv)
    (fs : RemoteFS) (n : Notifier) : ((runPair re t s env fs n).2).warnings = n.warnings := by
  unfold runPair
  by_cases h1 : env.mkdirOk <;> by_cases h2 : env.rmTmpOk <;> by_cases h3 : env.rsyncOk <;>
    by_cases h4 : env.mvOk <;> by_cases h5 : env.rmOldOk <;>
    by_cases h6 : retentionRaw env fs s = "" <;>
    simp [h1, h2, h3, h4, h5, h6, addError, addSuccess]

theorem runPair_errors_len (re : String) (t : BackupTargetR) (s : BackupSetR) (env : PairEnv)
    (fs : RemoteFS) (n : Notifier) :
    ((runPair re t s env fs n).2).errors.length =
      n.errors.length + (if pairFailed s env fs then 1 else 0) := by
  unfold runPair pairFailed
  by_cases h1 : env.mkdirOk <;> by_cases h2 : env.rmTmpOk <;> by_cases h3 : env.rsyncOk <;>
    by_cases h4 : env.mvOk <;> by_cases h5 : env.rmOldOk <;>
    by_cases h6 : retentionRaw env fs s = "" <;>
    simp [h1, h2, h3, h4, h5, h6, addError, addSuccess, bne_iff_ne]

theorem runPair_successes_len (re : String) (t : BackupTargetR) (s : BackupSetR) (env : PairEnv)
    (fs : RemoteFS) (n : Notifier) :
    ((runPair re t s env fs n).2).successes.length =
      n.successes.length + (if pairFailed s env fs then 0 else 1) := by
  unfold runPair pairFailed
  by_cases h1 : env.mkdirOk <;> by_cases h2 : env.rmTmpOk <;> by_cases h3 : env.rsyncOk <;>
    by_cases h4 : env.mvOk <;> by_cases h5 : env.rmOldOk <;>
    by_cases h6 : retentionRaw env fs s = "" <;>
    simp [h1, h2, h3, h4, h5, h6, addError, addSuccess, bne_iff_ne]

theorem runPair_errors_all_ok {re : String} {t : BackupTargetR} {s : BackupSetR} {env : PairEnv}
    {fs : RemoteFS} {n : Notifier} (h1 : env.mkdirOk = true) (h2 : env.rmTmpOk = true)
    (h3 : env.rsyncOk = true) (h4 : env.mvOk = true) (h5 : env.rmOldOk = true) :
    ((runPair re t s env fs n).2).errors = n.errors := by
  unfold runPair
  by_cases h6 : retentionRaw env fs s = "" <;>
    simp [h1, h2, h3, h4, h5, h6, addError, addSuccess]

theorem runPair_fs_all_ok {re : String} {t : BackupTargetR} {s : BackupSetR} {env : PairEnv}
    {fs : RemoteFS} {n : Notifier} (h1 : env.mkdirOk = true) (h2 : env.rmTmpOk = true)
    (h3 : env.rsyncOk = true) (h4 : env.mvOk = true) (h5 : env.rmOldOk = true)
    (hff : env.find2Fails = false) (hbnl : '\n' ∉ s.remotedir.data)
    (hnl : ∀ e ∈ (fsAfterPromote env fs).entries, '\n' ∉ e.1.data)
    (hnodup : ((fsAfterPromote env fs).names).Nodup) :
    (runPair re t s env fs n).1.entries =
      (fsAfterPromote env fs).entries.filter (fun e => decide ((e.2 : Int) ≤ s.retention)) := by
  have hiff := mem_retentionParsed_iff hff hbnl hnl hnodup
  unfold runPair
  by_cases h6 : retentionRaw env fs s = ""
  · simp only [h1, h2, h3, h4, h5, h6, Bool.not_true, Bool.false_eq_true, if_false, if_true]
    have hstale : staleLines s.remotedir (fsAfterPromote env fs) s.retention = [] := by
      have h6' := h6
      unfold retentionRaw at h6'
      rw [hff] at h6'
      simp only [Bool.false_eq_true, if_false] at h6'
      exact sortN_eq_nil_iff.mp (linesOut_eq_empty_iff.mp h6')
    refine (List.filter_eq_self.mpr ?_).symm
    intro e he
    have hmem := hiff e he
    rw [retentionParsed_eq hff hbnl hnl, hstale] at hmem
    simp only [sortN, List.insertionSort, List.not_mem_nil, false_iff] at hmem
    simpa [not_lt] using hmem
  · simp only [h1, h2, h3, h4, h5, h6, Bool.not_true, Bool.false_eq_true, if_false, if_true]
    apply List.filter_congr
    intro e he
    have hx := hiff e he
    rw [Bool.eq_iff_iff]
    simp only [Bool.not_eq_true', ← Bool.not_eq_true, List.elem_iff, hx,
      decide_eq_true_eq, not_lt]

theorem pairLatestRaw_no_fail {env : PairEnv} {fs : RemoteFS} {base : String}
    (hff : env.findFails = false) :
    pairLatestRaw env fs base = resolveLatestRaw base ((clearStaging fs).names) := by
  unfold pairLatestRaw findCandidates
  rw [hff]
  simp

theorem tmp_not_mem_clearStaging (fs : RemoteFS) : ".tmp" ∉ (clearStaging fs).names := by
  unfold clearStaging RemoteFS.names
  intro h
  obtain ⟨e, he, heq⟩ := List.mem_map.mp h
  have hf := (List.mem_filter.mp he).2
  rw [heq] at hf
  simp at hf

theorem runSetsFrom_outcomes (re : String) (t : BackupTargetR) (envs : Nat → PairEnv)
    (fss : Nat → RemoteFS) :
    ∀ (sets : List BackupSetR) (i : Nat) (n : Notifier),
      (runSetsFrom re t envs fss i sets n).errors.length +
          (runSetsFrom re t envs fss i sets n).successes.length =
        n.errors.length + n.successes.length + sets.length
  | [], i, n => by simp [runSetsFrom]
  | s :: rest, i, n => by
      rw [runSetsFrom]
      rw [runSetsFrom_outcomes re t envs fss rest (i + 1) _]
      have he := runPair_errors_len re t s (envs i) (fss i) n
      have hs := runPair_successes_len re t s (envs i) (fss i) n
      by_cases h : pairFailed s (envs i) (fss i) <;>
        simp only [h, if_true, if_false] at he hs <;>
        simp [he, hs] <;> omega

theorem runTargetsFrom_outcomes (re : String) (envs : Nat → Nat → PairEnv)
    (fss : Nat → Nat → RemoteFS) (sets : List BackupSetR) :
    ∀ (targets : List BackupTargetR) (j : Nat) (n : Notifier),
      (runTargetsFrom re envs fss sets j targets n).errors.length +
          (runTargetsFrom re envs fss sets j targets n).successes.length =
        n.errors.length + n.successes.length + targets.length * sets.length
  | [], j, n => by simp [runTargetsFrom]
  | t :: rest, j, n => by
      rw [runTargetsFrom]
      rw [runTargetsFrom_outcomes re envs fss sets rest (j + 1) _]
      rw [runSetsFrom_outcomes re t (envs j) (fss j) sets 0 n]
      rw [List.length_cons, Nat.succ_mul]
      omega

theorem runPair_fs_retention_fail (env : PairEnv) {re : String} {t : BackupTargetR}
    {s : BackupSetR} {fs : RemoteFS} {n : Notifier} (h1 : env.mkdirOk = true)
    (h2 : env.rmTmpOk = true) (h3 : env.rsyncOk = true) (h4 : env.mvOk = true)
    (h5 : env.rmOldOk = false) : (runPair re t s env fs n).1 = fsAfterPromote env fs := by
  unfold runPair
  rw [h1, h2, h3, h4, h5]
  by_cases h6 : retentionRaw env fs s = "" <;> simp [h6]

theorem runPair_fs_find2_fail (env : PairEnv) {re : String} {t : BackupTargetR}
    {s : BackupSetR} {fs : RemoteFS} {n : Notifier} (h1 : env.mkdirOk = true)
    (h2 : env.rmTmpOk = true) (h3 : env.rsyncOk = true) (h4 : env.mvOk = true)
    (hf2 : env.find2Fails = true) : (runPair re t s env fs n).1 = fsAfterPromote env fs := by
  have h6 : retentionRaw env fs s = "" := by
    unfold retentionRaw
    rw [hf2]
    simp
  unfold runPair
  rw [h1, h2, h3, h4]
  simp [h6]

/-! ### Claim theorems -/

/-- C1: the claim states that resolving "Nw" yields N weeks = N * 7 * 24 * 60 minutes (so "2w"
yields 20160).  The code instead multiplies by 52 * 7 * 24 * 60 per unit (one "week" computed
as 52 weeks), so "2w" resolves to 1048320 minutes; this evaluates the embedded code at the
failing input and records that the result differs from the claimed value. -/
theorem c1_retention_weeks_code_eval :
    processBackupSet (fun _ => true) [] ⟨[], [], []⟩ ⟨"/data", "/backups", [], some "2w"⟩ =
      .ok (⟨[], [], []⟩, some ⟨"/data", "/backups", [], 1048320⟩) ∧
    (1048320 : Int) ≠ 2 * 7 * 24 * 60 :=
  ⟨rfl, by decide⟩

/-- C2: the claim states resolution never raises and that the default cutoff is 12 weeks =
120960 minutes.  In the code the default is 12 * 52 * 7 * 24 * 60 = 6289920 minutes (the
warning text nevertheless says "defaulting to 12 weeks"), recording the unknown-unit warning
raises AttributeError (`add_warning` is passed a string context and dereferences `e.cmd`), and
a spec with a malformed integer part ("w") raises ValueError from `int("")`. -/
theorem c2_retention_default_code_eval :
    resolveRetention ⟨[], [], []⟩ "/data" none = .ok (6289920, ⟨[], [], []⟩) ∧
    resolveRetention ⟨[], [], []⟩ "/data" (some "3x") = .error .attributeError ∧
    resolveRetention ⟨[], [], []⟩ "/data" (some "w") = .error .valueError ∧
    (6289920 : Int) ≠ 120960 :=
  ⟨rfl, rfl, rfl, by decide⟩

/-- C3: the claim states that a missing local source path yields a Warning, excludes the
dataset and continues.  In the code the `add_warning` call at line 130 passes a string as the
exception context, whose `e.cmd` dereference raises AttributeError: the run aborts before any
further dataset is processed (second conjunct: the loop over two datasets dies on the first). -/
theorem c3_missing_localdir_raises :
    processBackupSet (fun _ => false) [] ⟨[], [], []⟩ ⟨"/data", "/backups", [], none⟩ =
      .error .attributeError ∧
    buildBackupSets (fun d => d != "/data") [] ⟨[], [], []⟩
      [⟨"/data", "/backups", [], none⟩, ⟨"/home", "/backups2", [], none⟩] =
      .error .attributeError :=
  ⟨rfl, rfl⟩

/-- C4 counterexample: with the port given as an integer, as the documented schema prescribes,
spawning the first remote command raises TypeError (an `int` argv element), and building the
rsync `-e` argument raises TypeError at `sshexe + ' -p ' + port`. -/
theorem c4_counterexample_int_port :
    argvStrings (.vstr "ssh" :: sshParamsDyn "/root/.ssh/id" (.vint 22) "u@h") =
      .error .typeError ∧
    rsyncEArgDyn "ssh" (.vint 22) "/root/.ssh/id" = .error .typeError :=
  ⟨rfl, rfl⟩

/-- C4 (amended): for every configuration whose ports are given as strings, the remote-shell
argv is accepted as spawned (all elements are strings) and the rsync `-e` argument is built
without a type error. -/
theorem c4_amended_string_port (sshexe key p ua : String) :
    argvStrings (.vstr sshexe :: sshParamsDyn key (.vstr p) ua) =
      .ok [sshexe, "-i", key, "-p", p, ua] ∧
    rsyncEArgDyn sshexe (.vstr p) key = .ok (.vstr (sshexe ++ " -p " ++ p ++ " -i " ++ key)) :=
  ⟨rfl, rfl⟩

/-- C5: the raw latest listing is empty exactly when there is no candidate directory; when
candidates exist the returned line is the base path joined to the lexicographically maximal
candidate name; the staging name is never among the candidates; with no latest, the transfer
command is built in full-transfer mode (no hard-link reference), and with all checked commands
succeeding the pipeline records no Error. -/
theorem c5_resolve_latest {base : String} (names : List String)
    (hb : base.data.head? = some '/') :
    (resolveLatestRaw base names = "" ↔ names = []) ∧
    (names ≠ [] → ∃ m, m ∈ names ∧ (∀ x ∈ names, x ≤ m) ∧
      resolveLatestRaw base names = base ++ "/" ++ m ++ "\n") ∧
    (∀ (env : PairEnv) (fs : RemoteFS), ".tmp" ∉ findCandidates env fs) ∧
    (∀ (rsyncexe sshexe : String) (t : BackupTargetR) (s : BackupSetR),
      transferCmd rsyncexe sshexe t s (resolveLatestRaw base []) =
        [rsyncexe, "-rltgoDz", "--stats", "--ignore-errors", "--delete", "--delete-excluded"] ++
          s.excludes ++ ["-e", sshexe ++ " -p " ++ t.port ++ " -i " ++ t.key, s.localdir,
            t.user ++ "@" ++ t.address ++ ":" ++ reEsc (s.remotedir ++ "/" ++ ".tmp")]) ∧
    (∀ (re : String) (t : BackupTargetR) (s : BackupSetR) (env : PairEnv) (fs : RemoteFS)
      (n : Notifier), env.mkdirOk = true → env.rmTmpOk = true → env.rsyncOk = true →
      env.mvOk = true → env.rmOldOk = true →
      ((runPair re t s env fs n).2).errors = n.errors) := by
  refine ⟨resolveLatestRaw_eq_empty_iff, ?_, ?_, ?_, ?_⟩
  · intro hne
    exact resolveLatestRaw_max hb hne
  · intro env fs
    unfold findCandidates
    by_cases hf : env.findFails
    · simp [hf]
    · simp only [hf, Bool.false_eq_true, if_false]
      exact tmp_not_mem_clearStaging fs
  · intro rsyncexe sshexe t s
    rfl
  · intro re t s env fs n h1 h2 h3 h4 h5
    exact runPair_errors_all_ok h1 h2 h3 h4 h5

/-- C5 witness: the hypothesis and the emptiness characterisation at a concrete base and
listing. -/
theorem c5_resolve_latest_witness :
    "/b".data.head? = some '/' ∧
    (resolveLatestRaw "/b" ["2024-01-01_030000", "2024-01-08_030000"] = "" ↔
      ["2024-01-01_030000", "2024-01-08_030000"] = ([] : List String)) :=
  ⟨by decide, (c5_resolve_latest ["2024-01-01_030000", "2024-01-08_030000"] (by decide)).1⟩

/-- C6: the two listing pipelines are spawned with `Popen` and never checked, so a listing
failure raises no `CalledProcessError` and the `except` handlers (lines 188-190 and 222-224)
are unreachable.  With the ResolveLatest listing failing, the pipeline proceeds in full-transfer
mode, records a Success and no Error; with the EnforceRetention listing failing, an over-age
snapshot survives, and again a Success and no Error is recorded — contradicting the claim that
an Error is recorded and the pipeline abandoned. -/
theorem c6_listing_failure_silent :
    ((runPair "rsync" ⟨"h", "u", "22", "k"⟩ ⟨"/d", "/b", [], 20160⟩
        ⟨true, true, true, true, true, false, true, "2024-02-01_030000"⟩
        ⟨[("2024-01-01_030000", 100)]⟩ ⟨[], [], []⟩).2.errors = [] ∧
      (runPair "rsync" ⟨"h", "u", "22", "k"⟩ ⟨"/d", "/b", [], 20160⟩
        ⟨true, true, true, true, true, false, true, "2024-02-01_030000"⟩
        ⟨[("2024-01-01_030000", 100)]⟩ ⟨[], [], []⟩).2.successes.length = 1) ∧
    pairLatestRaw ⟨true, true, true, true, true, false, true, "2024-02-01_030000"⟩
      ⟨[("2024-01-01_030000", 100)]⟩ "/b" = "" ∧
    ((runPair "rsync" ⟨"h", "u", "22", "k"⟩ ⟨"/d", "/b", [], 20160⟩
        ⟨true, true, false, true, true, true, true, "2024-02-01_030000"⟩
        ⟨[("2024-01-01_030000", 999999)]⟩ ⟨[], [], []⟩).1.entries =
      [("2024-01-01_030000", 999999), ("2024-02-01_030000", 0)] ∧
      (runPair "rsync" ⟨"h", "u", "22", "k"⟩ ⟨"/d", "/b", [], 20160⟩
        ⟨true, true, false, true, true, true, true, "2024-02-01_030000"⟩
        ⟨[("2024-01-01_999999", 999999)]⟩ ⟨[], [], []⟩).2.errors = []) :=
  ⟨⟨rfl, rfl⟩, rfl, rfl, rfl⟩

/-- C7 counterexample: for the latest snapshot "2024-01-08_030000" the hard-link reference the
code computes is "../2024\-01\-08_030000\<newline>" (the regex-escaped raw listing line with
its trailing newline, never stripped), not "../2024-01-08_030000" as the claim states; the
claimed value does not occur in the invoked command. -/
theorem c7_counterexample_linkdest :
    "../" ++ posixBasename (posixNormpath (reEsc (resolveLatestRaw "/b"
        ["2024-01-08_030000"]))) = "../2024\\-01\\-08_030000\\\n" ∧
    "../" ++ posixBasename (posixNormpath (reEsc (resolveLatestRaw "/b"
        ["2024-01-08_030000"]))) ≠ "../2024-01-08_030000" ∧
    ("--link-dest=" ++ "../2024-01-08_030000") ∉
      transferCmd "rsync" "ssh" ⟨"h", "u", "22", "k"⟩ ⟨"/d", "/b", [], 20160⟩
        (resolveLatestRaw "/b" ["2024-01-08_030000"]) :=
  ⟨rfl, by decide, by decide⟩

/-- C7 (amended): when a latest snapshot exists the transfer command carries exactly one
hard-link reference, whose value is "../" followed by the regex-escape of the latest (i.e.
lexicographically maximal) snapshot name and a trailing escaped newline; when no latest
snapshot exists the command carries no hard-link reference. -/
theorem c7_amended_linkdest {rsyncexe sshexe : String} {t : BackupTargetR} {s : BackupSetR}
    {env : PairEnv} {fs : RemoteFS} (hff : env.findFails = false)
    (hb : s.remotedir.data.head? = some '/')
    (hne : (clearStaging fs).names ≠ [])
    (hnames : ∀ nm ∈ (clearStaging fs).names, nm ≠ "" ∧ '/' ∉ nm.data ∧ '\n' ∉ nm.data) :
    (∃ m, m ∈ (clearStaging fs).names ∧ (∀ x ∈ (clearStaging fs).names, x ≤ m) ∧
      transferCmd rsyncexe sshexe t s (pairLatestRaw env fs s.remotedir) =
        [rsyncexe, "-rltgoDz", "--stats", "--ignore-errors", "--delete", "--delete-excluded"] ++
          s.excludes ++ ["-e", sshexe ++ " -p " ++ t.port ++ " -i " ++ t.key,
            "--link-dest=" ++ ("../" ++ (reEsc m ++ "\\\n")), s.localdir,
            t.user ++ "@" ++ t.address ++ ":" ++ reEsc (s.remotedir ++ "/" ++ ".tmp")]) ∧
    (∀ latestRaw : String, latestRaw = "" →
      transferCmd rsyncexe sshexe t s latestRaw =
        [rsyncexe, "-rltgoDz", "--stats", "--ignore-errors", "--delete", "--delete-excluded"] ++
          s.excludes ++ ["-e", sshexe ++ " -p " ++ t.port ++ " -i " ++ t.key, s.localdir,
            t.user ++ "@" ++ t.address ++ ":" ++ reEsc (s.remotedir ++ "/" ++ ".tmp")]) := by
  constructor
  · obtain ⟨m, hm, hmax, heq⟩ := resolveLatestRaw_max hb hne
    refine ⟨m, hm, hmax, ?_⟩
    rw [pairLatestRaw_no_fail hff, heq]
    obtain ⟨hm0, hms, hmn⟩ := hnames m hm
    unfold transferCmd
    have hraw_ne : (s.remotedir ++ "/" ++ m ++ "\n" : String) ≠ "" := by
      rw [str_ne_empty_iff, str_data_append]
      simp
    rw [if_neg hraw_ne]
    rw [linkDest_value hm0 hms hmn]
  · intro lr hlr
    rw [hlr]
    unfold transferCmd
    rw [if_pos rfl]

/-- C7 witness: the hypotheses at a one-snapshot state, and the no-latest half applied at the
empty raw value. -/
theorem c7_amended_linkdest_witness :
    ((clearStaging ⟨[("2024-01-08_030000", 5)]⟩).names ≠ [] ∧
      (∀ nm ∈ (clearStaging ⟨[("2024-01-08_030000", 5)]⟩).names,
        nm ≠ "" ∧ '/' ∉ nm.data ∧ '\n' ∉ nm.data)) ∧
    transferCmd "rsync" "ssh" ⟨"h", "u", "22", "k"⟩ ⟨"/d", "/b", [], 20160⟩ "" =
      ["rsync", "-rltgoDz", "--stats", "--ignore-errors", "--delete", "--delete-excluded"] ++
        ([] : List String) ++ ["-e", "ssh" ++ " -p " ++ "22" ++ " -i " ++ "k", "/d",
          "u" ++ "@" ++ "h" ++ ":" ++ reEsc ("/b" ++ "/" ++ ".tmp")] :=
  ⟨⟨by decide, by decide⟩,
    (@c7_amended_linkdest "rsync" "ssh" ⟨"h", "u", "22", "k"⟩ ⟨"/d", "/b", [], 20160⟩
      ⟨true, true, false, true, true, false, true, "2024-02-01_030000"⟩
      ⟨[("2024-01-08_030000", 5)]⟩ rfl (by decide) (by decide) (by decide)).2 "" rfl⟩

/-- C8: during EnforceRetention a snapshot's path is in the deletion list iff its ctime age in
minutes strictly exceeds the retention cutoff (so a snapshot exactly at the cutoff is
retained); on the all-success path the final remote state keeps exactly the entries with age ≤
cutoff; and the snapshot promoted in the same pipeline is not in the deletion list and survives
a failed retention step (rm failure or listing failure). -/
theorem c8_retention_selection {re : String} {t : BackupTargetR} {s : BackupSetR}
    {env : PairEnv} {fs : RemoteFS} {n : Notifier} (h1 : env.mkdirOk = true)
    (h2 : env.rmTmpOk = true) (h3 : env.rsyncOk = true) (h4 : env.mvOk = true)
    (h5 : env.rmOldOk = true) (hff : env.find2Fails = false)
    (hbnl : '\n' ∉ s.remotedir.data)
    (hnl : ∀ e ∈ (fsAfterPromote env fs).entries, '\n' ∉ e.1.data)
    (hnodup : ((fsAfterPromote env fs).names).Nodup) (hcut : 0 ≤ s.retention) :
    (∀ e ∈ (fsAfterPromote env fs).entries,
      ((s.remotedir ++ "/" ++ e.1) ∈ retentionParsed env fs s ↔ s.retention < (e.2 : Int))) ∧
    ((runPair re t s env fs n).1.entries =
      (fsAfterPromote env fs).entries.filter (fun e => decide ((e.2 : Int) ≤ s.retention))) ∧
    ((s.remotedir ++ "/" ++ env.stamp) ∉ retentionParsed env fs s) ∧
    ((env.stamp, 0) ∈ (runPair re t s {env with rmOldOk := false} fs n).1.entries) ∧
    ((env.stamp, 0) ∈ (runPair re t s {env with find2Fails := true} fs n).1.entries) := by
  have hiff := mem_retentionParsed_iff hff hbnl hnl hnodup
  have hstamp_mem : (env.stamp, 0) ∈ (fsAfterPromote env fs).entries := by
    unfold fsAfterPromote
    exact List.mem_append_right _ (List.mem_singleton.mpr rfl)
  refine ⟨hiff, runPair_fs_all_ok h1 h2 h3 h4 h5 hff hbnl hnl hnodup, ?_, ?_, ?_⟩
  · intro hmem
    have := (hiff (env.stamp, 0) hstamp_mem).mp hmem
    simp only at this
    omega
  · rw [runPair_fs_retention_fail {env with rmOldOk := false} h1 h2 h3 h4 rfl]
    exact hstamp_mem
  · rw [runPair_fs_find2_fail {env with find2Fails := true} h1 h2 h3 h4 rfl]
    exact hstamp_mem

/-- C8 witness: the spec's scenario — cutoff 20160 minutes (2 weeks), snapshots aged 10 days
(14400 min, retained) and 20 days (28800 min, deleted). -/
theorem c8_retention_selection_witness :
    (0 : Int) ≤ 20160 ∧
    (runPair "rsync" ⟨"h", "u", "22", "k"⟩ ⟨"/d", "/b", [], 20160⟩
        ⟨true, true, false, true, true, false, true, "2024-02-01_030000"⟩
        ⟨[("2024-01-12_030000", 14400), ("2024-01-02_030000", 28800)]⟩ ⟨[], [], []⟩).1.entries =
      (fsAfterPromote ⟨true, true, false, true, true, false, true, "2024-02-01_030000"⟩
        ⟨[("2024-01-12_030000", 14400), ("2024-01-02_030000", 28800)]⟩).entries.filter
        (fun e => decide ((e.2 : Int) ≤ (20160 : Int))) :=
  ⟨by decide,
    (@c8_retention_selection "rsync" ⟨"h", "u", "22", "k"⟩ ⟨"/d", "/b", [], 20160⟩
      ⟨true, true, false, true, true, false, true, "2024-02-01_030000"⟩
      ⟨[("2024-01-12_030000", 14400), ("2024-01-02_030000", 28800)]⟩ ⟨[], [], []⟩
      rfl rfl rfl rfl rfl rfl (by decide) (by decide) (by decide) (by decide)).2.1⟩

/-- C9 counterexample: a remote-command failure in the ResolveLatest step (a pipeline step)
yields zero Error outcomes for the pair, not exactly one. -/
theorem c9_counterexample_find_failure :
    ((runPair "rsync" ⟨"h2", "u2", "2222", "k2"⟩ ⟨"/srv", "/bk", [], 20160⟩
        ⟨true, true, true, true, true, false, true, "2024-03-01_000000"⟩
        ⟨[("2024-02-01_000000", 50)]⟩ ⟨[], [], []⟩).2).errors.length = 0 :=
  rfl

/-- C9 (amended): every pipeline invocation contributes exactly one outcome — one Error when a
checked command (EnsureBaseDir, ClearStaging, Transfer, Promote, stale-snapshot removal) fails,
one Success otherwise; failures of the unchecked listing commands contribute no Error; hence
over the whole driver loop errors + successes grow by exactly targets × datasets, every pair
running regardless of other pairs' failures, and the consolidated report is built from the
final aggregator state after the loop. -/
theorem c9_amended_isolation :
    (∀ (re : String) (t : BackupTargetR) (s : BackupSetR) (env : PairEnv) (fs : RemoteFS)
      (n : Notifier),
      ((runPair re t s env fs n).2).errors.length =
        n.errors.length + (if pairFailed s env fs then 1 else 0) ∧
      ((runPair re t s env fs n).2).successes.length =
        n.successes.length + (if pairFailed s env fs then 0 else 1)) ∧
    (∀ (re hostname : String) (targets : List BackupTargetR) (sets : List BackupSetR)
      (envs : Nat → Nat → PairEnv) (fss : Nat → Nat → RemoteFS) (n : Notifier),
      ((runAll re hostname targets sets envs fss n).1).errors.length +
        ((runAll re hostname targets sets envs fss n).1).successes.length =
        n.errors.length + n.successes.length + targets.length * sets.length ∧
      (runAll re hostname targets sets envs fss n).2 =
        buildReport hostname ((runAll re hostname targets sets envs fss n).1)) := by
  constructor
  · intro re t s env fs n
    exact ⟨runPair_errors_len re t s env fs n, runPair_successes_len re t s env fs n⟩
  · intro re hostname targets sets envs fss n
    exact ⟨runTargetsFrom_outcomes re envs fss sets targets 0 n, rfl⟩

/-- C10: the latest-snapshot candidate list never contains the staging name ".tmp" — the
listing sees the state produced by the preceding ClearStaging step even though the listing
command itself applies no filter — and every candidate is one of the pre-existing directory
names. -/
theorem c10_staging_excluded (env : PairEnv) (fs : RemoteFS) :
    ".tmp" ∉ findCandidates env fs ∧
    (∀ x, x ∈ findCandidates env fs → x ∈ fs.names) := by
  constructor
  · unfold findCandidates
    by_cases hf : env.findFails
    · simp [hf]
    · simp only [hf, Bool.false_eq_true, if_false]
      exact tmp_not_mem_clearStaging fs
  · intro x hx
    unfold findCandidates at hx
    by_cases hf : env.findFails
    · rw [hf] at hx
      simp at hx
    · simp only [hf, Bool.false_eq_true, if_false] at hx
      unfold clearStaging RemoteFS.names at hx
      obtain ⟨e, he, heq⟩ := List.mem_map.mp hx
      have hmem := (List.mem_filter.mp he).1
      unfold RemoteFS.names
      rw [← heq]
      exact List.mem_map_of_mem Prod.fst hmem

/-- C10 witness: at a concrete state containing a stale staging directory, ".tmp" is not among
the candidates while a genuine snapshot name is carried over. -/
theorem c10_staging_excluded_witness :
    ".tmp" ∉ findCandidates ⟨true, true, false, true, true, false, true, "st"⟩
      ⟨[(".tmp", 3), ("2024-01-01_030000", 9)]⟩ ∧
    "2024-01-01_030000" ∈
      (⟨[(".tmp", 3), ("2024-01-01_030000", 9)]⟩ : RemoteFS).names :=
  ⟨(c10_staging_excluded ⟨true, true, false, true, true, false, true, "st"⟩
      ⟨[(".tmp", 3), ("2024-01-01_030000", 9)]⟩).1,
    (c10_staging_excluded ⟨true, true, false, true, true, false, true, "st"⟩
      ⟨[(".tmp", 3), ("2024-01-01_030000", 9)]⟩).2 "2024-01-01_030000" (by decide)⟩

end Pyback
